import Mathlib

/-!
Verification of the vegalite schema-to-Python-wrapper generator
(`_schema_parser.py`).

The generator walks a JSON schema document: each named definition of kind
object or string is turned into generated Python source text (a class
definition module and a test stub module).  This file gives a shallow
embedding of the parsing and rendering logic and proves the documented
properties about it.

Modelling conventions:
- JSON property descriptors (the dictionaries passed to `any_attribute`)
  become the inductive `AttrDict`, with one optional field per key the
  code reads (`type`, the reference key, `oneOf`, `items`, `description`,
  `minimum`, `maximum`).
- Python exceptions become the `PyError` type and fallible code returns
  `Except PyError`.
- The mutable `self.imports` list is threaded explicitly: every resolution
  function returns the rendered text together with the list of import
  lines it appended, in append order.
- JSON numbers (`minimum`, `maximum`) are carried as their rendered
  decimal text, since the code only ever interpolates them into strings.
- Python string comparison (code-point lexicographic) is modelled by
  `pyLe` on the character data of Lean strings.
-/

/-- Python string ordering: code-point lexicographic comparison,
modelled as the lexicographic order on the character list. -/
def pyLe (a b : String) : Prop := a.data ≤ b.data

instance : DecidableRel pyLe := fun a b => inferInstanceAs (Decidable (a.data ≤ b.data))

instance : IsTotal String pyLe := ⟨fun a b => le_total a.data b.data⟩

instance : IsTrans String pyLe := ⟨fun _ _ _ => le_trans⟩

instance : IsAntisymm String pyLe := ⟨fun a b hab hba => by
  cases a; cases b
  exact congrArg String.mk (le_antisymm hab hba)⟩

theorem str_append_assoc : ∀ (a b c : String), a ++ b ++ c = a ++ (b ++ c)
  | ⟨a⟩, ⟨b⟩, ⟨c⟩ => congrArg String.mk (List.append_assoc a b c)

theorem str_data_append : ∀ (a b : String), (a ++ b).data = a.data ++ b.data
  | ⟨_⟩, ⟨_⟩ => rfl

/-- A JSON property descriptor, with one field per key the parser reads.
`ref` stands for the JSON key whose name is a hash-slash reference path. -/
inductive AttrDict where
  | mk (type : Option String) (ref : Option String)
      (oneOf : Option (List AttrDict)) (items : Option AttrDict)
      (description : Option String) (minimum : Option String) (maximum : Option String)

def AttrDict.type : AttrDict → Option String
  | .mk t _ _ _ _ _ _ => t

def AttrDict.ref : AttrDict → Option String
  | .mk _ r _ _ _ _ _ => r

def AttrDict.oneOf : AttrDict → Option (List AttrDict)
  | .mk _ _ oo _ _ _ _ => oo

def AttrDict.items : AttrDict → Option AttrDict
  | .mk _ _ _ it _ _ _ => it

def AttrDict.description : AttrDict → Option String
  | .mk _ _ _ _ d _ _ => d

def AttrDict.minimum : AttrDict → Option String
  | .mk _ _ _ _ _ mn _ => mn

def AttrDict.maximum : AttrDict → Option String
  | .mk _ _ _ _ _ _ mx => mx

/-- A top-level schema definition descriptor: its `type` field, its
`properties` mapping (for object kinds) and its `enum` list (for string
kinds), each absent when the JSON key is absent. -/
structure Definition where
  type : String
  properties : Option (List (String × AttrDict))
  enum : Option (List String)

/-- The `definitions` mapping of the schema document, as an ordered
association list with unique keys (a JSON object / Python dict). -/
def Schema := List (String × Definition)

/-- Dictionary lookup in the definitions mapping. -/
def lookup_def (schema : Schema) (name : String) : Option Definition :=
  (schema.find? (fun kv => kv.1 == name)).map Prod.snd

/-- Python `s.lower()`: per-character lowercase. -/
def py_lower (s : String) : String := ⟨s.data.map Char.toLower⟩

/-- The separator character of reference paths. -/
def slash_char : Char := Char.ofNat 47

/-- Python `s.split(sep)` for a one-character separator, character-list
level. -/
def py_split_char (sep : Char) : List Char → List (List Char)
  | [] => [[]]
  | c :: rest =>
    match py_split_char sep rest with
    | [] => [[]]
    | h :: t => if c = sep then [] :: h :: t else (c :: h) :: t

/-- Python `s.split(sep)` for a one-character separator. -/
def py_split (sep : Char) (s : String) : List String :=
  (py_split_char sep s.data).map (fun l => (⟨l⟩ : String))

/-- Python exceptions raised by the parser. -/
inductive PyError where
  | notImplementedError (msg : String)
  | keyError (key : String)
  | valueError (msg : String)

/-- Python `s.split(sep)[0]`: the text before the first occurrence of
`sep`, or all of `s` when `sep` does not occur (character-list level). -/
def py_split_first (pat : List Char) : List Char → List Char
  | [] => []
  | c :: rest =>
    if pat.isPrefixOf (c :: rest) then [] else c :: py_split_first pat rest

/-- Python `s.rstrip()`: drop trailing whitespace. -/
def py_rstrip (l : List Char) : List Char :=
  (l.reverse.dropWhile Char.isWhitespace).reverse

/-- `SchemaDefinition.format_help_string`: optionally summarize by cutting
at the example marker and at the sentence boundary, then wrap in a
triple-quoted docstring ending in a period. -/
def format_help_string (help_str : String) (summarize : Bool) : String :=
  let h : String :=
    if summarize then
      ⟨py_split_first ".".data (py_split_first "(e.g.".data help_str.data)⟩
    else help_str
  "\"\"\"" ++ (⟨py_rstrip h.data⟩ : String) ++ ".\"\"\""

/-- `SchemaDefinition.get_attr_kwds`: the keyword dictionary for an
attribute, in Python insertion order. -/
def get_attr_kwds (attr_dict : AttrDict) : List (String × String) :=
  [("allow_none", "True"), ("default_value", "None")]
  ++ (match attr_dict.description with
      | some h => [("help", format_help_string h true)]
      | none => [])
  ++ (match attr_dict.minimum with
      | some m => [("min", m)]
      | none => [])
  ++ (match attr_dict.maximum with
      | some m => [("max", m)]
      | none => [])

/-- Python `", ".join`. -/
def join_comma : List String → String
  | [] => ""
  | [a] => a
  | a :: rest => a ++ ", " ++ join_comma rest

/-- Ordering of keyword items by key, modelling Python `sorted` on the
items of a dict with unique keys. -/
def kwd_le (a b : String × String) : Prop := pyLe a.1 b.1

instance : DecidableRel kwd_le := fun a b => inferInstanceAs (Decidable (pyLe a.1 b.1))

instance : IsTotal (String × String) kwd_le :=
  ⟨fun a b => IsTotal.total (r := pyLe) a.1 b.1⟩

instance : IsTrans (String × String) kwd_le :=
  ⟨fun _ _ _ hab hbc => Trans.trans (r := pyLe) (s := pyLe) hab hbc⟩

/-- `SchemaDefinition.kwds_to_str`: render the keyword dictionary sorted
by key, with the `help` entry moved to the end. -/
def kwds_to_str (kwds : List (String × String)) : String :=
  let vals := join_comma
    (((List.insertionSort kwd_le kwds).filter (fun kv => kv.1 ≠ "help")).map
      (fun kv => kv.1 ++ "=" ++ kv.2))
  match List.lookup "help" kwds with
  | some h => vals ++ ", help=" ++ h
  | none => vals

/-- The positional-argument part of `instance_str`: the sorted arguments
followed by a comma, or empty when there are none. -/
def args_str (args : List String) : String :=
  if args.isEmpty then "" else join_comma (List.insertionSort pyLe args) ++ ", "

/-- `ObjectDefinition.instance_str`: a traitlet construction string. -/
def instance_str (cls : String) (args : List String) (kwds : List (String × String)) : String :=
  "T." ++ cls ++ "(" ++ args_str args ++ kwds_to_str kwds ++ ")"

/-- `ObjectDefinition.ref_attribute`: resolve a reference descriptor.
The returned list holds the import line appended to `self.imports`. -/
def ref_attribute (schema : Schema) (attr_dict : AttrDict) :
    Except PyError (String × List String) :=
  let kwds := get_attr_kwds attr_dict
  match attr_dict.ref with
  | none => .error (.keyError "$ref")
  | some r =>
    match py_split slash_char r with
    | [_, _, name] =>
      let imp := "from ." ++ py_lower name ++ " import " ++ name
      match lookup_def schema name with
      | none => .error (.keyError name)
      | some defn =>
        if defn.type = "object" then
          .ok (instance_str "Instance" [name] kwds, [imp])
        else if defn.type = "string" then
          .ok (name ++ "(" ++ kwds_to_str kwds ++ ")", [imp])
        else
          .error (.notImplementedError ("type = " ++ defn.type))
    | _ => .error (.valueError r)

mutual

/-- `ObjectDefinition.any_attribute`: switch over the descriptor shape.
The branch for a present `type` key embeds `type_attribute` (its `array`
case recurses into `items`); the branch for a present reference key calls
`ref_attribute`; the branch for a present `oneOf` key embeds
`oneof_attribute` (resolve every alternative in declaration order, then
render the union of the rendered texts sorted lexicographically). -/
def any_attribute (schema : Schema) : AttrDict → Except PyError (String × List String)
  | d@(.mk (some tp) _ _ items _ _ _) =>
    let kwds := get_attr_kwds d
    if tp = "array" then
      match items with
      | none => .error (.keyError "items")
      | some it =>
        match any_attribute schema it with
        | .error e => .error e
        | .ok (typename, imps) => .ok (instance_str "List" [typename] kwds, imps)
    else if tp = "boolean" then .ok (instance_str "Bool" [] kwds, [])
    else if tp = "number" then .ok (instance_str "CFloat" [] kwds, [])
    else if tp = "string" then .ok (instance_str "Unicode" [] kwds, [])
    else if tp = "object" then .ok (instance_str "Any" [] kwds, [])
    else .error (.notImplementedError tp)
  | d@(.mk none (some _) _ _ _ _ _) => ref_attribute schema d
  | .mk none none (some alts) _ _ _ _ =>
    match oneof_list schema alts with
    | .error e => .error e
    | .ok rs =>
      .ok ("T.Union([" ++ join_comma (List.insertionSort pyLe (rs.map Prod.fst)) ++ "])",
           (rs.map Prod.snd).flatten)
  | .mk none none none _ _ _ _ => .error (.notImplementedError "unrecognized attribute keys")

/-- Resolve the alternatives of a `oneOf` descriptor in declaration
order, as the generator expression inside `oneof_attribute` does when it
is consumed by `sorted`. -/
def oneof_list (schema : Schema) : List AttrDict → Except PyError (List (String × List String))
  | [] => .ok []
  | a :: rest =>
    match any_attribute schema a with
    | .error e => .error e
    | .ok r =>
      match oneof_list schema rest with
      | .error e => .error e
      | .ok rs => .ok (r :: rs)

end

/-- `ObjectDefinition.type_attribute`, as a standalone function: represent
a descriptor with a `type` key. -/
def type_attribute (schema : Schema) (attr_dict : AttrDict) :
    Except PyError (String × List String) :=
  let kwds := get_attr_kwds attr_dict
  match attr_dict.type with
  | none => .error (.keyError "type")
  | some tp =>
    if tp = "array" then
      match attr_dict.items with
      | none => .error (.keyError "items")
      | some it =>
        match any_attribute schema it with
        | .error e => .error e
        | .ok (typename, imps) => .ok (instance_str "List" [typename] kwds, imps)
    else if tp = "boolean" then .ok (instance_str "Bool" [] kwds, [])
    else if tp = "number" then .ok (instance_str "CFloat" [] kwds, [])
    else if tp = "string" then .ok (instance_str "Unicode" [] kwds, [])
    else if tp = "object" then .ok (instance_str "Any" [] kwds, [])
    else .error (.notImplementedError tp)

/-- `ObjectDefinition.oneof_attribute`, as a standalone function:
represent a descriptor with a `oneOf` key. -/
def oneof_attribute (schema : Schema) (attr_dict : AttrDict) :
    Except PyError (String × List String) :=
  match attr_dict.oneOf with
  | none => .error (.keyError "oneOf")
  | some alts =>
    match oneof_list schema alts with
    | .error e => .error e
    | .ok rs =>
      .ok ("T.Union([" ++ join_comma (List.insertionSort pyLe (rs.map Prod.fst)) ++ "])",
           (rs.map Prod.snd).flatten)

/-- Ordering of object properties by name, modelling Python
`sorted(self.prop_dict.items())` on a dict with unique keys. -/
def prop_le (a b : String × AttrDict) : Prop := pyLe a.1 b.1

instance : DecidableRel prop_le := fun a b => inferInstanceAs (Decidable (pyLe a.1 b.1))

instance : IsTotal (String × AttrDict) prop_le :=
  ⟨fun a b => IsTotal.total (r := pyLe) a.1 b.1⟩

instance : IsTrans (String × AttrDict) prop_le :=
  ⟨fun _ _ _ hab hbc => Trans.trans (r := pyLe) (s := pyLe) hab hbc⟩

/-- The properties of an object definition in rendering order:
`sorted(self.prop_dict.items())`. -/
def sorted_items (props : List (String × AttrDict)) : List (String × AttrDict) :=
  List.insertionSort prop_le props

/-- `ObjectDefinition.attr_template`, applied. -/
def attr_template (key val : String) : String :=
  "    " ++ key ++ " = " ++ val ++ "\n"

/-- `ObjectDefinition.class_template`, applied. -/
def class_template (name : String) : String :=
  "class " ++ name ++ "(BaseObject):\n"

/-- Resolve a list of properties (already in rendering order) into the
concatenated attribute lines and the import lines appended on the way. -/
def object_attrs (schema : Schema) : List (String × AttrDict) → Except PyError (String × List String)
  | [] => .ok ("", [])
  | (key, val) :: rest =>
    match any_attribute schema val with
    | .error e => .error e
    | .ok (s, imps) =>
      match object_attrs schema rest with
      | .error e => .error e
      | .ok (restStr, restImps) => .ok (attr_template key s ++ restStr, imps ++ restImps)

/-- `ObjectDefinition.code`: the class body, properties sorted by name,
together with the reference imports appended while rendering. -/
def ObjectDefinition.code (schema : Schema) (name : String)
    (props : List (String × AttrDict)) : Except PyError (String × List String) :=
  match object_attrs schema (sorted_items props) with
  | .error e => .error e
  | .ok (attrs, imps) => .ok (class_template name ++ attrs, imps)

/-- Python `repr` of a simple string value (schema enum values contain no
quotes or escapes), as interpolated by `str.format` on a list. -/
def py_repr_str (s : String) : String :=
  String.singleton (Char.ofNat 39) ++ s ++ String.singleton (Char.ofNat 39)

/-- Python `str` of a list of strings, as interpolated by `str.format`. -/
def py_repr_str_list (xs : List String) : String :=
  "[" ++ join_comma (xs.map py_repr_str) ++ "]"

/-- `StringDefinition.enum_template`, applied. -/
def enum_template (cls values : String) : String :=
  "class " ++ cls ++ "(T.Enum):\n    def __init__(self, default_value=T.Undefined, **metadata):\n        super(" ++ cls ++ ", self).__init__(" ++ values ++ ",\n                                    default_value=default_value,\n                                    **metadata)"

/-- `StringDefinition.string_template`, applied. -/
def string_template (cls : String) : String :=
  "class " ++ cls ++ "(T.Unicode):\n    pass"

/-- `StringDefinition.code`: an enumeration class when the definition
carries an `enum` list, else a transparent string wrapper. -/
def StringDefinition.code (name : String) (enum : Option (List String)) : String :=
  match enum with
  | some vals => enum_template name (py_repr_str_list vals)
  | none => string_template name

/-- `SchemaDefinition.file_comment`. -/
def file_comment : String :=
  "# This file auto-generated by _schema_parser.py.\n# Do not modify this file directly."

/-- The initial `self.imports` of an `ObjectDefinition`. -/
def object_base_imports : List String :=
  ["import traitlets as T", "from ..baseobject import BaseObject"]

/-- The initial `self.imports` of a `StringDefinition`. -/
def string_base_imports : List String :=
  ["import traitlets as T"]

/-- Join of import lines, as `class_definition` renders `self.imports`. -/
def join_newline : List String → String
  | [] => ""
  | [a] => a
  | a :: rest => a ++ "\n" ++ join_newline rest

/-- The result of `SchemaDefinition.init`: the constructed definition
object (an `ObjectDefinition` or a `StringDefinition`). -/
inductive ClassifiedDef where
  | objectDef (name : String) (props : List (String × AttrDict))
  | stringDef (name : String) (enum : Option (List String))

/-- `SchemaDefinition.init`: classify a named definition by its declared
type.  An object definition reads its `properties` mapping on
construction (`KeyError` when absent). -/
def SchemaDefinition.init (name : String) (schema : Schema) : Except PyError ClassifiedDef :=
  match lookup_def schema name with
  | none => .error (.keyError name)
  | some defn =>
    if defn.type = "object" then
      match defn.properties with
      | none => .error (.keyError "properties")
      | some props => .ok (.objectDef name props)
    else if defn.type = "string" then .ok (.stringDef name defn.enum)
    else .error (.notImplementedError ("Definition type=" ++ defn.type))

/-- `SchemaDefinition.class_definition`: the file comment, then the import
lines (base imports plus the reference imports appended while rendering,
in append order, not deduplicated), then the class code. -/
def class_definition (schema : Schema) : ClassifiedDef → Except PyError String
  | .objectDef name props =>
    match ObjectDefinition.code schema name props with
    | .error e => .error e
    | .ok (body, refImps) =>
      .ok (file_comment ++ "\n\n" ++ join_newline (object_base_imports ++ refImps)
           ++ "\n\n\n" ++ body ++ "\n")
  | .stringDef name enum =>
    .ok (file_comment ++ "\n\n" ++ join_newline string_base_imports
         ++ "\n\n\n" ++ StringDefinition.code name enum ++ "\n")

/-- `SchemaDefinition.test_script`: the test stub module source. -/
def test_script (name : String) : String :=
  file_comment ++ "\n\n" ++ "from ... import " ++ name ++ "\n\n\ndef test_" ++ name
  ++ "():\n    obj = " ++ name ++ "()\n"

/-- The generation pipeline over one definition name. -/
def generate_one (schema : Schema) (name : String) : Except PyError (String × String × String) :=
  match SchemaDefinition.init name schema with
  | .error e => .error e
  | .ok d =>
    match class_definition schema d with
    | .error e => .error e
    | .ok cls => .ok (name, cls, test_script name)

/-- The generation loop of `write_python_wrappers` over a list of
definition names. -/
def generate_all (schema : Schema) : List String → Except PyError (List (String × String × String))
  | [] => .ok []
  | name :: rest =>
    match generate_one schema name with
    | .error e => .error e
    | .ok x =>
      match generate_all schema rest with
      | .error e => .error e
      | .ok xs => .ok (x :: xs)

/-- `VegaLiteSchema.definitions` composed with the per-definition
rendering of `write_python_wrappers`: iterate the definition names in
sorted order (`sorted(self.schema[defskey])`) and produce, per
definition, its name, its class module source and its test module
source. -/
def VegaLiteSchema.definitions (schema : Schema) :
    Except PyError (List (String × String × String)) :=
  generate_all schema (List.insertionSort pyLe (schema.map Prod.fst))

/-- Concatenation of rendered fragments (Python string join with empty
separator). -/
def join_all : List String → String
  | [] => ""
  | a :: rest => a ++ join_all rest

/-- `sub` occurs as contiguous text inside `s`. -/
def contains_text (s sub : String) : Prop :=
  ∃ l r, s.data = l ++ sub.data ++ r

/-- Character position of the first occurrence of `pat`, or the length of
the text when `pat` does not occur. -/
def first_occurrence_pos (pat s : List Char) : Nat :=
  (py_split_first pat s).length

/-- Modelled from the specification wording for comparison with
`format_help_string`: truncate at the first sentence boundary (first
period) and at the first occurrence of the example marker, whichever of
the two comes first in the text. -/
def summarize_spec (s : List Char) : List Char :=
  s.take (min (first_occurrence_pos ".".data s) (first_occurrence_pos "(e.g.".data s))

/-- Concrete descriptor: a boolean-typed property. -/
def ex_bool_attr : AttrDict := .mk (some "boolean") none none none none none none

/-- Concrete descriptor: a number-typed property. -/
def ex_num_attr : AttrDict := .mk (some "number") none none none none none none

/-- Concrete descriptor: a reference to definition `B`. -/
def ex_ref_attr : AttrDict := .mk none (some "#/definitions/B") none none none none none

/-- Concrete definition `B`: an object with no properties. -/
def ex_def_B : Definition := ⟨"object", some [], none⟩

/-- Concrete definition `A`: an object whose two properties both
reference `B`. -/
def ex_def_A : Definition := ⟨"object", some [("x", ex_ref_attr), ("y", ex_ref_attr)], none⟩

/-- Concrete schema document holding `A` and `B`. -/
def ex_schema : Schema := [("A", ex_def_A), ("B", ex_def_B)]

theorem any_attribute_type_branch (schema : Schema) (d : AttrDict) (h : d.type.isSome) :
    any_attribute schema d = type_attribute schema d := by
  obtain ⟨t, rf, oo, it, de, mn, mx⟩ := d
  cases t with
  | none => simp [AttrDict.type] at h
  | some tp =>
    rw [any_attribute.eq_def]
    simp only [type_attribute, AttrDict.type, AttrDict.items]
    cases it <;> rfl

theorem any_attribute_ref_branch (schema : Schema) (d : AttrDict)
    (h1 : d.type = none) (h2 : d.ref.isSome) :
    any_attribute schema d = ref_attribute schema d := by
  obtain ⟨t, rf, oo, it, de, mn, mx⟩ := d
  simp only [AttrDict.type] at h1
  subst h1
  cases rf with
  | none => simp [AttrDict.ref] at h2
  | some r => rw [any_attribute.eq_def]

theorem any_attribute_oneof_branch (schema : Schema) (d : AttrDict)
    (h1 : d.type = none) (h2 : d.ref = none) (h3 : d.oneOf.isSome) :
    any_attribute schema d = oneof_attribute schema d := by
  obtain ⟨t, rf, oo, it, de, mn, mx⟩ := d
  simp only [AttrDict.type] at h1
  simp only [AttrDict.ref] at h2
  subst h1; subst h2
  cases oo with
  | none => simp [AttrDict.oneOf] at h3
  | some alts =>
    rw [any_attribute.eq_def]
    simp only [oneof_attribute, AttrDict.oneOf]

theorem any_attribute_no_keys (schema : Schema) (d : AttrDict)
    (h1 : d.type = none) (h2 : d.ref = none) (h3 : d.oneOf = none) :
    any_attribute schema d = .error (.notImplementedError "unrecognized attribute keys") := by
  obtain ⟨t, rf, oo, it, de, mn, mx⟩ := d
  simp only [AttrDict.type] at h1
  simp only [AttrDict.ref] at h2
  simp only [AttrDict.oneOf] at h3
  subst h1; subst h2; subst h3
  rw [any_attribute.eq_def]

/-- C9: when a property descriptor contains more than one of the shape
keys, resolution silently follows the fixed priority type, then the
reference key, then oneOf; only a descriptor containing none of the
three raises the unrecognized-shape error. -/
theorem c9_shape_priority (schema : Schema) (d : AttrDict) :
    (d.type.isSome → any_attribute schema d = type_attribute schema d) ∧
    (d.type = none → d.ref.isSome → any_attribute schema d = ref_attribute schema d) ∧
    (d.type = none → d.ref = none → d.oneOf.isSome →
      any_attribute schema d = oneof_attribute schema d) ∧
    (d.type = none → d.ref = none → d.oneOf = none →
      any_attribute schema d = .error (.notImplementedError "unrecognized attribute keys")) :=
  ⟨any_attribute_type_branch schema d,
   any_attribute_ref_branch schema d,
   any_attribute_oneof_branch schema d,
   any_attribute_no_keys schema d⟩

/-- C9 witness: the priority order observed on concrete descriptors that
carry several shape keys at once. -/
theorem c9_shape_priority_witness :
    (any_attribute ex_schema (.mk (some "boolean") (some "#/definitions/B") (some []) none none none none) =
      type_attribute ex_schema (.mk (some "boolean") (some "#/definitions/B") (some []) none none none none)) ∧
    (any_attribute ex_schema (.mk none (some "#/definitions/B") (some []) none none none none) =
      ref_attribute ex_schema (.mk none (some "#/definitions/B") (some []) none none none none)) ∧
    (any_attribute ex_schema (.mk none none (some []) none none none none) =
      oneof_attribute ex_schema (.mk none none (some []) none none none none)) ∧
    (any_attribute ex_schema (.mk none none none none none none none) =
      .error (.notImplementedError "unrecognized attribute keys")) :=
  ⟨(c9_shape_priority ex_schema _).1 rfl,
   (c9_shape_priority ex_schema _).2.1 rfl rfl,
   (c9_shape_priority ex_schema _).2.2.1 rfl rfl rfl,
   (c9_shape_priority ex_schema _).2.2.2 rfl rfl rfl⟩

/-- C8: classifying a definition whose declared type is neither object
nor string fails with an error carrying the offending kind string and
produces no definition object; object yields an `ObjectDefinition` and
string yields a `StringDefinition`. -/
theorem c8_classify_by_type (name : String) (schema : Schema) (defn : Definition)
    (h : lookup_def schema name = some defn) :
    (defn.type ≠ "object" → defn.type ≠ "string" →
      SchemaDefinition.init name schema =
        .error (.notImplementedError ("Definition type=" ++ defn.type))) ∧
    (defn.type = "object" → ∀ props, defn.properties = some props →
      SchemaDefinition.init name schema = .ok (.objectDef name props)) ∧
    (defn.type = "string" →
      SchemaDefinition.init name schema = .ok (.stringDef name defn.enum)) := by
  refine ⟨fun h1 h2 => ?_, fun h1 props h2 => ?_, fun h1 => ?_⟩
  · simp [SchemaDefinition.init, h, h1, h2]
  · simp [SchemaDefinition.init, h, h1, h2]
  · simp [SchemaDefinition.init, h, h1]

/-- C8 witness: classification observed on a concrete schema holding an
object definition, a string definition and an array-typed definition. -/
theorem c8_classify_by_type_witness :
    (SchemaDefinition.init "Bad" [("Bad", ⟨"array", none, none⟩)] =
      .error (.notImplementedError ("Definition type=" ++ "array"))) ∧
    (SchemaDefinition.init "A" ex_schema = .ok (.objectDef "A" [("x", ex_ref_attr), ("y", ex_ref_attr)])) ∧
    (SchemaDefinition.init "Color" [("Color", ⟨"string", none, some ["red"]⟩)] =
      .ok (.stringDef "Color" (some ["red"]))) :=
  ⟨(c8_classify_by_type "Bad" [("Bad", ⟨"array", none, none⟩)] ⟨"array", none, none⟩ rfl).1
      (by decide) (by decide),
   (c8_classify_by_type "A" ex_schema ex_def_A rfl).2.1 rfl _ rfl,
   (c8_classify_by_type "Color" [("Color", ⟨"string", none, some ["red"]⟩)]
      ⟨"string", none, some ["red"]⟩ rfl).2.2 rfl⟩

/-- C10: resolving a reference attribute succeeds exactly when the
reference string splits into exactly three slash-separated segments, the
third segment names an existing definition, and that definition has type
object or string. -/
theorem c10_ref_success_iff (schema : Schema) (d : AttrDict) (r : String)
    (h : d.ref = some r) :
    (∃ out, ref_attribute schema d = .ok out) ↔
      ∃ a b name, py_split slash_char r = [a, b, name] ∧
        ∃ defn, lookup_def schema name = some defn ∧
          (defn.type = "object" ∨ defn.type = "string") := by
  obtain ⟨t, rf, oo, it, de, mn, mx⟩ := d
  simp only [AttrDict.ref] at h
  subst h
  simp only [ref_attribute, AttrDict.ref]
  constructor
  · rintro ⟨out, hout⟩
    split at hout
    next a b name heq =>
      refine ⟨a, b, name, heq, ?_⟩
      split at hout
      next => simp at hout
      next defn hlk =>
        refine ⟨defn, hlk, ?_⟩
        split_ifs at hout with hobj hstr
        · exact Or.inl hobj
        · exact Or.inr hstr
    next => simp at hout
  · rintro ⟨a, b, name, hsp, defn, hlk, htyp⟩
    rw [hsp]
    rcases htyp with hk | hk
    · simp [hlk, hk]
    · rcases eq_or_ne defn.type "object" with ho | ho
      · simp [hlk, ho]
      · simp [hlk, hk, ho]

/-- C10 witness: a concrete well-formed reference resolves successfully;
the characterization instantiated on the example schema. -/
theorem c10_ref_success_iff_witness :
    ∃ out, ref_attribute ex_schema ex_ref_attr = .ok out :=
  (c10_ref_success_iff ex_schema ex_ref_attr "#/definitions/B" rfl).mpr
    ⟨"#", "definitions", "B", rfl, ex_def_B, rfl, Or.inl rfl⟩

theorem not_contains_of_shorter (s sub : String) (h : s.data.length < sub.data.length) :
    ¬ contains_text s sub := by
  rintro ⟨l, r, hlr⟩
  have hlen := congrArg List.length hlr
  rw [List.length_append, List.length_append] at hlen
  omega

theorem kwds_take35 (d : AttrDict) :
    (kwds_to_str (get_attr_kwds d)).data.take 35 = "allow_none=True, default_value=None".data := by
  obtain ⟨t, rf, oo, it, de, mn, mx⟩ := d
  cases de <;> cases mn <;> cases mx <;> rfl

theorem contains_text_concat (front kstr back sub : String) (n : Nat)
    (hk : kstr.data.take n = sub.data) :
    contains_text (front ++ kstr ++ back) sub := by
  refine ⟨front.data, kstr.data.drop n ++ back.data, ?_⟩
  rw [str_data_append, str_data_append]
  conv_lhs => rw [← List.take_append_drop n kstr.data]
  rw [hk]
  simp [List.append_assoc]

/-- C5: a String definition with an enum list produces an enumeration
class embedding the value list verbatim and in declared order; a String
definition without one produces a transparent string wrapper; the value
list is never resorted, so differently ordered value lists render
differently. -/
theorem c5_enum_order :
    (∀ name vals, StringDefinition.code name (some vals) =
      "class " ++ name ++ "(T.Enum):\n    def __init__(self, default_value=T.Undefined, **metadata):\n        super(" ++ name ++ ", self).__init__(" ++ ("[" ++ join_comma (vals.map py_repr_str) ++ "]") ++ ",\n                                    default_value=default_value,\n                                    **metadata)") ∧
    (∀ name, StringDefinition.code name none = "class " ++ name ++ "(T.Unicode):\n    pass") ∧
    StringDefinition.code "Color" (some ["red", "green", "blue"]) ≠
      StringDefinition.code "Color" (some (List.insertionSort pyLe ["red", "green", "blue"])) :=
  ⟨fun _ _ => rfl, fun _ => rfl, by decide⟩

/-- C1 counterexample: definition A references B twice; resolution
appends the import line for module b once per reference and
class_definition renders the import list without deduplication, so the
list contains a duplicate entry. -/
theorem c1_duplicate_imports_counterexample :
    ObjectDefinition.code ex_schema "A" [("x", ex_ref_attr), ("y", ex_ref_attr)] =
      .ok ("class A(BaseObject):\n    x = T.Instance(B, allow_none=True, default_value=None)\n    y = T.Instance(B, allow_none=True, default_value=None)\n",
           ["from .b import B", "from .b import B"]) ∧
    ¬ (object_base_imports ++ ["from .b import B", "from .b import B"]).Nodup ∧
    class_definition ex_schema (.objectDef "A" [("x", ex_ref_attr), ("y", ex_ref_attr)]) =
      .ok (file_comment ++ "\n\n"
           ++ join_newline (object_base_imports ++ ["from .b import B", "from .b import B"])
           ++ "\n\n\n"
           ++ "class A(BaseObject):\n    x = T.Instance(B, allow_none=True, default_value=None)\n    y = T.Instance(B, allow_none=True, default_value=None)\n"
           ++ "\n") :=
  ⟨rfl, by decide, rfl⟩

/-- C1 amended: every successfully resolved reference contributes exactly
one import of the target module at its point of resolution (and the
rendered import list concatenates these contributions without
deduplication, so a target referenced twice appears twice). -/
theorem c1_one_import_per_reference (schema : Schema) (d : AttrDict)
    (s : String) (imps : List String)
    (h : ref_attribute schema d = .ok (s, imps)) :
    ∃ r, d.ref = some r ∧ ∃ a b name, py_split slash_char r = [a, b, name] ∧
      imps = ["from ." ++ py_lower name ++ " import " ++ name] := by
  obtain ⟨t, rf, oo, it, de, mn, mx⟩ := d
  cases rf with
  | none => simp [ref_attribute, AttrDict.ref] at h
  | some r =>
    simp only [ref_attribute, AttrDict.ref] at h
    refine ⟨r, rfl, ?_⟩
    split at h
    next a b name heq =>
      refine ⟨a, b, name, heq, ?_⟩
      split at h
      next => simp at h
      next defn hlk =>
        split_ifs at h with hobj hstr <;>
          simp only [Except.ok.injEq, Prod.mk.injEq] at h <;> exact h.2.symm
    next => simp at h

/-- C1 amended witness: the single import contributed by the concrete
reference to definition B. -/
theorem c1_one_import_per_reference_witness :
    ∃ r, ex_ref_attr.ref = some r ∧ ∃ a b name, py_split slash_char r = [a, b, name] ∧
      ["from .b import B"] = ["from ." ++ py_lower name ++ " import " ++ name] :=
  c1_one_import_per_reference ex_schema ex_ref_attr
    "T.Instance(B, allow_none=True, default_value=None)" ["from .b import B"] rfl

/-- C2 counterexample: a oneOf descriptor resolves to a union whose
wrapper carries no keywords at all: with no alternatives the rendered
text contains neither allow_none nor default_value, and with an
alternative the keywords appear only inside the alternative, never on
the union itself. -/
theorem c2_union_no_kwds_counterexample :
    any_attribute [] (.mk none none (some []) none none none none) = .ok ("T.Union([])", []) ∧
    ¬ contains_text "T.Union([])" "allow_none=True" ∧
    ¬ contains_text "T.Union([])" "default_value=None" ∧
    any_attribute [] (.mk none none (some [ex_bool_attr]) none none none none) =
      .ok ("T.Union([T.Bool(allow_none=True, default_value=None)])", []) :=
  ⟨rfl, not_contains_of_shorter _ _ (by decide), not_contains_of_shorter _ _ (by decide), rfl⟩

theorem typed_contains_kwds (schema : Schema) (d : AttrDict)
    (out : String × List String) (ht : d.type.isSome)
    (h : any_attribute schema d = .ok out) :
    contains_text out.1 "allow_none=True, default_value=None" := by
  rw [any_attribute_type_branch schema d ht] at h
  obtain ⟨t, rf, oo, it, de, mn, mx⟩ := d
  cases t with
  | none => simp [AttrDict.type] at ht
  | some tp =>
    simp only [type_attribute, AttrDict.type, AttrDict.items] at h
    split_ifs at h with h1 h2 h3 h4 h5
    · split at h
      next => simp at h
      next it1 heq =>
        split at h
        next e hany => simp at h
        next typename imps hany =>
          simp only [Except.ok.injEq] at h
          rw [← h]
          exact contains_text_concat _ _ _ _ 35 (kwds_take35 _)
    all_goals
      simp only [Except.ok.injEq] at h
      rw [← h]
      exact contains_text_concat _ _ _ _ 35 (kwds_take35 _)

theorem ref_contains_kwds (schema : Schema) (d : AttrDict)
    (out : String × List String) (h1 : d.type = none) (h2 : d.ref.isSome)
    (h : any_attribute schema d = .ok out) :
    contains_text out.1 "allow_none=True, default_value=None" := by
  rw [any_attribute_ref_branch schema d h1 h2] at h
  obtain ⟨t, rf, oo, it, de, mn, mx⟩ := d
  cases rf with
  | none => simp [AttrDict.ref] at h2
  | some r =>
    simp only [ref_attribute, AttrDict.ref] at h
    split at h
    next a b name heq =>
      split at h
      next => simp at h
      next defn hlk =>
        split_ifs at h with hobj hstr <;>
        · simp only [Except.ok.injEq] at h
          rw [← h]
          exact contains_text_concat _ _ _ _ 35 (kwds_take35 _)
    next => simp at h

/-- C2 corrected: the keyword set derived for an attribute always
contains allow_none=True and default_value=None, the rendered keyword
text always starts with exactly that text, and every attribute resolved
through the typed branch or the reference branch carries it in its
rendered form; the union branch attaches no keywords to the T.Union
wrapper itself (only its alternatives carry them). -/
theorem c2_kwds_by_branch :
    (∀ d : AttrDict, ("allow_none", "True") ∈ get_attr_kwds d ∧
      ("default_value", "None") ∈ get_attr_kwds d) ∧
    (∀ d : AttrDict, (kwds_to_str (get_attr_kwds d)).data.take 35 =
      "allow_none=True, default_value=None".data) ∧
    (∀ (schema : Schema) (d : AttrDict) (out : String × List String), d.type.isSome →
      any_attribute schema d = .ok out →
        contains_text out.1 "allow_none=True, default_value=None") ∧
    (∀ (schema : Schema) (d : AttrDict) (out : String × List String), d.type = none →
      d.ref.isSome → any_attribute schema d = .ok out →
        contains_text out.1 "allow_none=True, default_value=None") :=
  ⟨fun d => ⟨by simp [get_attr_kwds], by simp [get_attr_kwds]⟩,
   kwds_take35, typed_contains_kwds, ref_contains_kwds⟩

/-- C2 corrected witness: the keyword text observed inside concrete
typed-branch and reference-branch renderings. -/
theorem c2_kwds_by_branch_witness :
    contains_text "T.Bool(allow_none=True, default_value=None)"
      "allow_none=True, default_value=None" ∧
    contains_text "T.Instance(B, allow_none=True, default_value=None)"
      "allow_none=True, default_value=None" :=
  ⟨c2_kwds_by_branch.2.2.1 [] ex_bool_attr
      ("T.Bool(allow_none=True, default_value=None)", []) rfl rfl,
   c2_kwds_by_branch.2.2.2 ex_schema ex_ref_attr
      ("T.Instance(B, allow_none=True, default_value=None)", ["from .b import B"]) rfl rfl rfl⟩

theorem oneof_list_cons_ok (schema : Schema) (a : AttrDict) (rest : List AttrDict)
    (rs : List (String × List String)) :
    oneof_list schema (a :: rest) = .ok rs ↔
      ∃ r ts, any_attribute schema a = .ok r ∧ oneof_list schema rest = .ok ts ∧
        rs = r :: ts := by
  constructor
  · intro h
    rw [oneof_list.eq_2] at h
    split at h
    next e he => simp at h
    next r hr =>
      split at h
      next e he => simp at h
      next ts hts =>
        simp only [Except.ok.injEq] at h
        exact ⟨r, ts, hr, hts, h.symm⟩
  · rintro ⟨r, ts, h1, h2, rfl⟩
    rw [oneof_list.eq_2, h1, h2]

theorem oneof_list_perm (schema : Schema) {l₁ l₂ : List AttrDict} (hp : l₁.Perm l₂) :
    ∀ {rs₁ : List (String × List String)}, oneof_list schema l₁ = .ok rs₁ →
      ∃ rs₂, oneof_list schema l₂ = .ok rs₂ ∧ rs₁.Perm rs₂ := by
  induction hp with
  | nil => exact fun h => ⟨_, h, List.Perm.refl _⟩
  | cons x hp ih =>
    intro rs₁ h
    rw [oneof_list_cons_ok] at h
    obtain ⟨r, ts, hx, hrest, rfl⟩ := h
    obtain ⟨ts₂, hts₂, hperm⟩ := ih hrest
    exact ⟨r :: ts₂, (oneof_list_cons_ok schema x _ _).mpr ⟨r, ts₂, hx, hts₂, rfl⟩,
      hperm.cons r⟩
  | swap x y l =>
    intro rs₁ h
    rw [oneof_list_cons_ok] at h
    obtain ⟨ry, ts, hy, hrest, rfl⟩ := h
    rw [oneof_list_cons_ok] at hrest
    obtain ⟨rx, ts2, hx, hrest2, rfl⟩ := hrest
    refine ⟨rx :: ry :: ts2, ?_, List.Perm.swap rx ry ts2⟩
    exact (oneof_list_cons_ok schema x _ _).mpr
      ⟨rx, ry :: ts2, hx, (oneof_list_cons_ok schema y _ _).mpr ⟨ry, ts2, hy, hrest2, rfl⟩, rfl⟩
  | trans hp1 hp2 ih1 ih2 =>
    intro rs₁ h
    obtain ⟨rs₂, h2, p2⟩ := ih1 h
    obtain ⟨rs₃, h3, p3⟩ := ih2 h2
    exact ⟨rs₃, h3, p2.trans p3⟩

/-- C3: a oneOf descriptor renders as the union of the alternatives
rendered representations sorted lexicographically by rendered text, so
permuted alternative lists produce identical rendered attribute text. -/
theorem c3_union_sorted (schema : Schema) (d₁ d₂ : AttrDict)
    (l₁ l₂ : List AttrDict) (h₁ : d₁.oneOf = some l₁) (h₂ : d₂.oneOf = some l₂)
    (hp : l₁.Perm l₂) (s₁ : String) (i₁ : List String)
    (hok : oneof_attribute schema d₁ = .ok (s₁, i₁)) :
    (∃ parts, List.Sorted pyLe parts ∧ s₁ = "T.Union([" ++ join_comma parts ++ "])") ∧
    (∃ i₂, oneof_attribute schema d₂ = .ok (s₁, i₂)) := by
  simp only [oneof_attribute, h₁] at hok
  split at hok
  next e he => simp at hok
  next rs₁ hrs₁ =>
    simp only [Except.ok.injEq, Prod.mk.injEq] at hok
    obtain ⟨hs, hi⟩ := hok
    obtain ⟨rs₂, hrs₂, hperm⟩ := oneof_list_perm schema hp hrs₁
    have hsorteq : List.insertionSort pyLe (rs₁.map Prod.fst) =
        List.insertionSort pyLe (rs₂.map Prod.fst) :=
      List.eq_of_perm_of_sorted
        (((List.perm_insertionSort pyLe (rs₁.map Prod.fst)).trans
            (hperm.map Prod.fst)).trans
          (List.perm_insertionSort pyLe (rs₂.map Prod.fst)).symm)
        (List.sorted_insertionSort pyLe (rs₁.map Prod.fst))
        (List.sorted_insertionSort pyLe (rs₂.map Prod.fst))
    refine ⟨⟨List.insertionSort pyLe (rs₁.map Prod.fst),
      List.sorted_insertionSort pyLe _, hs.symm⟩, ?_⟩
    refine ⟨(rs₂.map Prod.snd).flatten, ?_⟩
    simp only [oneof_attribute, h₂, hrs₂]
    rw [← hs, hsorteq]

/-- C3 witness: the permuted concrete unions of number and boolean both
render as the same sorted union text. -/
theorem c3_union_sorted_witness :
    (∃ parts, List.Sorted pyLe parts ∧
      "T.Union([T.Bool(allow_none=True, default_value=None), T.CFloat(allow_none=True, default_value=None)])" =
        "T.Union([" ++ join_comma parts ++ "])") ∧
    (∃ i₂, oneof_attribute []
        (.mk none none (some [ex_bool_attr, ex_num_attr]) none none none none) =
      .ok ("T.Union([T.Bool(allow_none=True, default_value=None), T.CFloat(allow_none=True, default_value=None)])", i₂)) :=
  c3_union_sorted [] (.mk none none (some [ex_num_attr, ex_bool_attr]) none none none none)
    (.mk none none (some [ex_bool_attr, ex_num_attr]) none none none none)
    [ex_num_attr, ex_bool_attr] [ex_bool_attr, ex_num_attr] rfl rfl
    (List.Perm.swap ex_bool_attr ex_num_attr [])
    "T.Union([T.Bool(allow_none=True, default_value=None), T.CFloat(allow_none=True, default_value=None)])"
    [] rfl

theorem sorted_perm_eq_of_nodup_keys :
    ∀ (l₁ l₂ : List (String × AttrDict)), l₁.Perm l₂ →
      l₁.Sorted prop_le → l₂.Sorted prop_le → (l₁.map Prod.fst).Nodup → l₁ = l₂ := by
  intro l₁
  induction l₁ with
  | nil => exact fun l₂ hp _ _ _ => hp.nil_eq
  | cons a t ih =>
    intro l₂ hp hs₁ hs₂ hnd
    cases l₂ with
    | nil =>
      have := hp.eq_nil
      simp at this
    | cons b t₂ =>
      by_cases hab : a = b
      · subst hab
        have ht : t.Perm t₂ := hp.cons_inv
        have hteq := ih t₂ ht hs₁.of_cons hs₂.of_cons
          (by simpa using (List.nodup_cons.mp (by simpa using hnd)).2)
        rw [hteq]
      · exfalso
        have hbmem : b ∈ a :: t := hp.mem_iff.mpr (List.mem_cons_self b t₂)
        have hamem : a ∈ b :: t₂ := hp.mem_iff.mp (List.mem_cons_self a t)
        have hbt : b ∈ t := by
          rcases List.mem_cons.mp hbmem with hcase | hcase
          · exact absurd hcase.symm hab
          · exact hcase
        have hat₂ : a ∈ t₂ := by
          rcases List.mem_cons.mp hamem with hcase | hcase
          · exact absurd hcase hab
          · exact hcase
        have h1 : prop_le a b := List.rel_of_sorted_cons hs₁ b hbt
        have h2 : prop_le b a := List.rel_of_sorted_cons hs₂ a hat₂
        have hkey : a.1 = b.1 :=
          (inferInstanceAs (IsAntisymm String pyLe)).antisymm a.1 b.1 h1 h2
        have hmem : a.1 ∈ t.map Prod.fst := by
          rw [hkey]
          exact List.mem_map_of_mem Prod.fst hbt
        have hnotin : a.1 ∉ t.map Prod.fst :=
          (List.nodup_cons.mp (by simpa using hnd)).1
        exact hnotin hmem

theorem object_attrs_decomp (schema : Schema) :
    ∀ (items : List (String × AttrDict)) (body : String) (imps : List String),
      object_attrs schema items = .ok (body, imps) →
      ∃ lines : List (String × String),
        lines.map Prod.fst = items.map Prod.fst ∧
        body = join_all (lines.map (fun kv => attr_template kv.1 kv.2)) := by
  intro items
  induction items with
  | nil =>
    intro body imps h
    simp only [object_attrs, Except.ok.injEq, Prod.mk.injEq] at h
    exact ⟨[], rfl, by simp [join_all, ← h.1]⟩
  | cons kv rest ih =>
    obtain ⟨key, val⟩ := kv
    intro body imps h
    rw [object_attrs] at h
    split at h
    next e he => simp at h
    next s imps1 hany =>
      split at h
      next e he => simp at h
      next restStr restImps hrest =>
        simp only [Except.ok.injEq, Prod.mk.injEq] at h
        obtain ⟨hbody, himps⟩ := h
        obtain ⟨lines, hkeys, hattrs⟩ := ih restStr restImps hrest
        refine ⟨(key, s) :: lines, by simp [hkeys], ?_⟩
        rw [← hbody]
        simp only [List.map_cons, join_all, hattrs]

/-- C4: the generated class body holds exactly one attribute line per
declared property, in ascending lexicographic property-name order,
independently of the order the properties appear in the input. -/
theorem c4_sorted_properties (schema : Schema) (name : String)
    (props₁ props₂ : List (String × AttrDict))
    (hnd : (props₁.map Prod.fst).Nodup) (hp : props₁.Perm props₂)
    (body : String) (imps : List String)
    (hok : ObjectDefinition.code schema name props₁ = .ok (body, imps)) :
    ObjectDefinition.code schema name props₂ = .ok (body, imps) ∧
    ∃ lines : List (String × String),
      body = class_template name ++ join_all (lines.map (fun kv => attr_template kv.1 kv.2)) ∧
      (lines.map Prod.fst).Perm (props₁.map Prod.fst) ∧
      (lines.map Prod.fst).Sorted pyLe := by
  have hsi : sorted_items props₁ = sorted_items props₂ :=
    sorted_perm_eq_of_nodup_keys _ _
      ((List.perm_insertionSort prop_le props₁).trans
        (hp.trans (List.perm_insertionSort prop_le props₂).symm))
      (List.sorted_insertionSort prop_le props₁)
      (List.sorted_insertionSort prop_le props₂)
      ((((List.perm_insertionSort prop_le props₁).map Prod.fst).nodup_iff).mpr hnd)
  constructor
  · simp only [ObjectDefinition.code, sorted_items] at hok ⊢
    rw [show List.insertionSort prop_le props₂ = List.insertionSort prop_le props₁ from by
      simpa [sorted_items] using hsi.symm]
    exact hok
  · simp only [ObjectDefinition.code] at hok
    split at hok
    next e he => simp at hok
    next attrs imps1 hoa =>
      simp only [Except.ok.injEq, Prod.mk.injEq] at hok
      obtain ⟨hbody, himps⟩ := hok
      obtain ⟨lines, hkeys, hattrs⟩ := object_attrs_decomp schema _ _ _ hoa
      refine ⟨lines, ?_, ?_, ?_⟩
      · rw [← hbody, hattrs]
      · rw [hkeys]
        exact ((List.perm_insertionSort prop_le props₁).map Prod.fst).trans (List.Perm.refl _)
      · rw [hkeys]
        exact (List.pairwise_map).mpr (List.sorted_insertionSort prop_le props₁)

/-- C4 witness: the concrete object with properties declared as b then a
renders a before b, and the permuted declaration renders identically. -/
theorem c4_sorted_properties_witness :
    ObjectDefinition.code [] "Obj" [("a", ex_num_attr), ("b", ex_bool_attr)] =
      .ok ("class Obj(BaseObject):\n    a = T.CFloat(allow_none=True, default_value=None)\n    b = T.Bool(allow_none=True, default_value=None)\n", []) ∧
    ∃ lines : List (String × String),
      "class Obj(BaseObject):\n    a = T.CFloat(allow_none=True, default_value=None)\n    b = T.Bool(allow_none=True, default_value=None)\n" =
        class_template "Obj" ++ join_all (lines.map (fun kv => attr_template kv.1 kv.2)) ∧
      (lines.map Prod.fst).Perm ([("b", ex_bool_attr), ("a", ex_num_attr)].map Prod.fst) ∧
      (lines.map Prod.fst).Sorted pyLe :=
  c4_sorted_properties [] "Obj" [("b", ex_bool_attr), ("a", ex_num_attr)]
    [("a", ex_num_attr), ("b", ex_bool_attr)] (by decide)
    (List.Perm.swap ("a", ex_num_attr) ("b", ex_bool_attr) [])
    "class Obj(BaseObject):\n    a = T.CFloat(allow_none=True, default_value=None)\n    b = T.Bool(allow_none=True, default_value=None)\n"
    [] rfl

/-- The sentence-boundary character. -/
def dot_char : Char := Char.ofNat 46

theorem py_split_first_take (pat : List Char) :
    ∀ s : List Char, py_split_first pat s = s.take (py_split_first pat s).length := by
  intro s
  induction s with
  | nil => rfl
  | cons c rest ih =>
    rw [py_split_first]
    by_cases hpre : pat.isPrefixOf (c :: rest)
    · simp [hpre]
    · rw [if_neg hpre, List.length_cons, List.take_succ_cons]
      rw [← ih]

theorem py_split_first_single (c : Char) :
    ∀ s : List Char, py_split_first [c] s = s.takeWhile (fun x => x != c) := by
  intro s
  induction s with
  | nil => rfl
  | cons a rest ih =>
    rw [py_split_first, List.takeWhile]
    by_cases hac : a = c
    · subst hac
      simp [List.isPrefixOf]
    · have h1 : ([c].isPrefixOf (a :: rest)) = false := by
        simp [List.isPrefixOf, Ne.symm hac]
      have h2 : (a != c) = true := by simp [hac]
      rw [h1, h2]
      simp [ih]

theorem takeWhile_take_comm (p : Char → Bool) :
    ∀ (l : List Char) (n : Nat), (l.take n).takeWhile p = (l.takeWhile p).take n := by
  intro l
  induction l with
  | nil => simp
  | cons a rest ih =>
    intro n
    cases n with
    | zero => simp
    | succ m =>
      rw [List.take_succ_cons, List.takeWhile, List.takeWhile]
      by_cases hpa : p a
      · simp only [hpa]
        rw [List.take_succ_cons, ih]
      · simp [hpa]

theorem py_split_first_dot_marker (s : List Char) :
    py_split_first ".".data (py_split_first "(e.g.".data s) = summarize_spec s := by
  have hdot : ".".data = [dot_char] := rfl
  rw [hdot, py_split_first_single dot_char]
  conv_lhs => rw [py_split_first_take "(e.g.".data s]
  rw [takeWhile_take_comm]
  rw [← py_split_first_single dot_char, ← hdot]
  conv_lhs => rw [py_split_first_take ".".data s]
  rw [List.take_take]
  rw [Nat.min_comm]
  rfl

/-- C6: the derived documentation string is the description truncated at
the first sentence boundary or at the first example marker, whichever
comes first in the text, and the summary becomes the help keyword of the
attribute. -/
theorem c6_help_summary :
    (∀ s : String, format_help_string s true =
      "\"\"\"" ++ (⟨py_rstrip (summarize_spec s.data)⟩ : String) ++ ".\"\"\"") ∧
    (∀ (d : AttrDict) (h : String), d.description = some h →
      ("help", format_help_string h true) ∈ get_attr_kwds d) := by
  constructor
  · intro s
    simp only [format_help_string, if_true]
    rw [py_split_first_dot_marker]
  · intro d hstr hd
    obtain ⟨t, rf, oo, it, de, mn, mx⟩ := d
    simp only [AttrDict.description] at hd
    subst hd
    simp [get_attr_kwds, AttrDict.description]

/-- C6 witness: the help keyword derived from a concrete description that
contains both a sentence boundary and an example marker. -/
theorem c6_help_summary_witness :
    ("help", format_help_string "Hi (e.g. x). More" true) ∈
      get_attr_kwds (.mk none none none none (some "Hi (e.g. x). More") none none) :=
  c6_help_summary.2 (.mk none none none none (some "Hi (e.g. x). More") none none)
    "Hi (e.g. x). More" rfl

theorem generate_one_fst (schema : Schema) (name : String)
    (x : String × String × String) (h : generate_one schema name = .ok x) :
    x.1 = name := by
  rw [generate_one] at h
  split at h
  next e he => simp at h
  next d hd =>
    split at h
    next e he => simp at h
    next cls hcls =>
      simp only [Except.ok.injEq] at h
      rw [← h]

theorem generate_all_fst (schema : Schema) :
    ∀ (names : List String) (out : List (String × String × String)),
      generate_all schema names = .ok out → out.map Prod.fst = names := by
  intro names
  induction names with
  | nil =>
    intro out h
    simp only [generate_all, Except.ok.injEq] at h
    simp [← h]
  | cons name rest ih =>
    intro out h
    rw [generate_all] at h
    split at h
    next e he => simp at h
    next x hx =>
      split at h
      next e he => simp at h
      next xs hxs =>
        simp only [Except.ok.injEq] at h
        rw [← h]
        simp [generate_one_fst schema name x hx, ih xs hxs]

/-- C7: the pipeline is a pure function of the schema document (two runs
agree), and the produced definitions appear in definition-name-sorted
order. -/
theorem c7_determinism (schema : Schema) :
    VegaLiteSchema.definitions schema = VegaLiteSchema.definitions schema ∧
    ∀ out, VegaLiteSchema.definitions schema = .ok out →
      out.map Prod.fst = List.insertionSort pyLe (schema.map Prod.fst) ∧
      (out.map Prod.fst).Sorted pyLe := by
  refine ⟨rfl, fun out h => ?_⟩
  simp only [VegaLiteSchema.definitions] at h
  have hfst := generate_all_fst schema _ _ h
  exact ⟨hfst, hfst ▸ List.sorted_insertionSort pyLe _⟩

/-- Concrete two-definition schema, declared in unsorted order. -/
def ex_str_schema : Schema := [("B", ⟨"string", none, none⟩), ("A", ⟨"string", none, none⟩)]

/-- The generated class module of a plain string definition. -/
def ex_module (name : String) : String :=
  file_comment ++ "\n\n" ++ "import traitlets as T" ++ "\n\n\n" ++ string_template name ++ "\n"

/-- C7 witness: the concrete pipeline output lists definitions A then B
even though the document declares B first. -/
theorem c7_determinism_witness :
    ([("A", ex_module "A", test_script "A"), ("B", ex_module "B", test_script "B")].map Prod.fst =
      List.insertionSort pyLe (ex_str_schema.map Prod.fst)) ∧
    (([("A", ex_module "A", test_script "A"), ("B", ex_module "B", test_script "B")].map Prod.fst).Sorted pyLe) :=
  (c7_determinism ex_str_schema).2
    [("A", ex_module "A", test_script "A"), ("B", ex_module "B", test_script "B")] rfl
